import Mathlib

/-!
Verification of the news_scraper crawl-and-extract engine.

The definitions below are a shallow embedding of the repository:
`news_scraper/spiders/businessstandard.py`, `run_all_scrapers.py` and
`run_scrapers_simple.py`.  Components of the engine that the repository
configures but whose implementation is not among these files (the rule
dispatcher, the item-loader field resolution, the date-window generator,
the sitemap URL templater, the seen-URL deduplicator and the concurrency
controller) are modelled from the specification, as marked on each
definition.
-/

namespace NewsScraper

/-- Does `pat` occur at the start of `s` (on character lists)? -/
def charsBeginWith : List Char → List Char → Bool
  | [], _ => true
  | _ :: _, [] => false
  | a :: as, b :: bs => a == b && charsBeginWith as bs

/-- Does `pat` occur anywhere inside `s` (on character lists)? -/
def charsHaveInfix (pat : List Char) : List Char → Bool
  | [] => match pat with
          | [] => true
          | _ :: _ => false
  | b :: rest => charsBeginWith pat (b :: rest) || charsHaveInfix pat rest

/-- Substring occurrence test on strings: `pat` occurs somewhere in `s`. -/
def strContains (s pat : String) : Bool := charsHaveInfix pat.data s.data

/-! ## Rule Dispatcher (claim C2)

`BusinessStandardSpider.sitemap_rules` (businessstandard.py line 19) is an
ordered list of (regex pattern, callback-name) pairs.  The patterns used in
this repository are plain substring literals such as `/markets/`, so pattern
matching is substring occurrence in the URL. -/

/-- A dispatch rule pattern matches a URL when the pattern occurs in it. -/
def ruleMatches (pat url : String) : Bool := strContains url pat

/-- Modelled from the spec: the Rule Dispatcher (the sitemap-rule engine of
the spider base class, not under src/) evaluates each rule in declaration
order against the URL and returns the extraction routine of the first rule
whose pattern matches; with no match the URL is dropped (`none`). -/
def dispatch (rules : List (String × String)) (url : String) : Option String :=
  match rules with
  | [] => none
  | (p, r) :: rest => if ruleMatches p url then some r else dispatch rest url

/-- `sitemap_rules` of `BusinessStandardSpider` (businessstandard.py line 19). -/
def sitemap_rules : List (String × String) :=
  [("/markets/", "parse"), ("/companies/", "parse"), ("/economy-policy/", "parse")]

/-! ## Page model and `BusinessStandardSpider.parse` (claims C3, C6)

A fetched page is modelled by the text fragments each selector of
`BusinessStandardSpider.parse` (businessstandard.py lines 23-70) would
return on it. -/

/-- A fetched page document, as seen through the selectors used by
`BusinessStandardSpider.parse`: each field holds the list of text fragments
the corresponding CSS/XPath query extracts. -/
structure Page where
  /-- `h1.stryhdtp::text` -/
  titleTexts : List String
  /-- `h2.strydsc::text` -/
  descriptionTexts : List String
  /-- `span.MainStory_dtlauthinfo__u_CUx span::text` -/
  authorTexts : List String
  /-- `//div[@id="parent_top_div"]/div/text()` -/
  marketsDivTexts : List String
  /-- story-content `//p/text()` without whtsclick or auto_disclaimer -/
  storyParaTexts : List String
  /-- story-content `//div/text()` -/
  storyDivTexts : List String
  /-- texts of `<small>` elements on the page -/
  smallTexts : List String
  /-- `meta[property="article:published_time"]::attr(content)` -/
  publishedMeta : List String
  /-- `meta[http-equiv="Last-Modified"]::attr(content)` -/
  modifiedMeta : List String

/-- The output entity loaded by `NewsArticleItemLoader` in
`BusinessStandardSpider.parse`. -/
structure NewsArticleItem where
  title : String
  description : String
  author : String
  article_text : String
  paywall : String
  date_published : String
  date_modified : String
deriving DecidableEq

/-- Drop leading whitespace characters. -/
def dropWs : List Char → List Char
  | [] => []
  | c :: rest => if c.isWhitespace then dropWs rest else c :: rest

/-- Strip leading and trailing whitespace from a string. -/
def strTrim (s : String) : String :=
  String.mk ((dropWs ((dropWs s.data).reverse)).reverse)

/-- Modelled from the spec: the item loader's output step (the
`NewsArticleItemLoader` class is not under src/) trims each fragment and
joins the fragments of a field with no separator. -/
def cleanJoin (xs : List String) : String := String.join (xs.map strTrim)

/-- `response.xpath(..Premium..)` of businessstandard.py line 53: is some
`<small>` element containing the text "Premium" present on the page? -/
def premiumMarker (p : Page) : Bool :=
  p.smallTexts.any (fun t => strContains t "Premium")

/-- Embedding of `BusinessStandardSpider.parse` (businessstandard.py
lines 23-70): assemble the article item from the page's selector results,
with the paywall flag derived from the Premium marker. -/
def parsePage (p : Page) : NewsArticleItem :=
  { title := cleanJoin p.titleTexts
    description := cleanJoin p.descriptionTexts
    author := cleanJoin p.authorTexts
    article_text := cleanJoin (p.marketsDivTexts ++ p.storyParaTexts ++ p.storyDivTexts)
    paywall := if premiumMarker p then "True" else "False"
    date_published := cleanJoin p.publishedMeta
    date_modified := cleanJoin p.modifiedMeta }

/-- `parse` yields exactly one loaded item per response
(`yield article.load_item()` at businessstandard.py line 70). -/
def parse (p : Page) : List NewsArticleItem := [parsePage p]

/-! ## Field resolution (claim C1)

Modelled from the spec: the field-resolution routine of the item loader
(`NewsArticleItemLoader`, not under src/).  A page document is seen through
the fragment lists the declared selector sources yield, in declared order. -/

/-- Resolution mode of a FieldSpec. -/
inductive FieldMode where
  | fallback
  | union
deriving DecidableEq

/-- Does a source result hold at least one non-empty extracted value? -/
def hasValue (r : List String) : Bool := r.any (fun s => !s.isEmpty)

/-- First source result holding a non-empty value, in declared order;
empty when no source yields anything. -/
def firstWithValue : List (List String) → List String
  | [] => []
  | r :: rest => if hasValue r then r else firstWithValue rest

/-- Modelled from the spec: field resolution.  `results` lists, in declared
order, the fragments each selector source of the field spec yields on the
page.  Fallback mode takes the first source result with a non-empty value;
union mode concatenates all source results in declared order. -/
def resolveField (mode : FieldMode) (results : List (List String)) : List String :=
  match mode with
  | .fallback => firstWithValue results
  | .union => results.flatten

/-! ## Sitemap URL Templater (claims C4 groundwork, C5) -/

/-- A calendar date, as the `datetime` values handed to the per-site date
formatters. -/
structure CrawlDate where
  year : Nat
  month : Nat
  day : Nat
deriving DecidableEq

/-- Four-digit zero-padded year, `strftime("%Y")`
(businessstandard.py line 15). -/
def fmtYear (d : CrawlDate) : String :=
  let s := toString d.year
  String.mk (List.replicate (4 - s.length) '0') ++ s

/-- Lowercased full English month name: `strftime("%B").lower()`
(businessstandard.py line 16); months count 1-12. -/
def monthName : Nat → String
  | 1 => "january"
  | 2 => "february"
  | 3 => "march"
  | 4 => "april"
  | 5 => "may"
  | 6 => "june"
  | 7 => "july"
  | 8 => "august"
  | 9 => "september"
  | 10 => "october"
  | 11 => "november"
  | 12 => "december"
  | _ => ""

/-- The month formatter of `sitemap_date_formatter`. -/
def fmtMonth (d : CrawlDate) : String := monthName d.month

/-- Replace every occurrence of `pat` in a character list by `rep`;
`fuel` bounds the scan (one unit per consumed character). -/
def replaceChars (pat rep : List Char) : Nat → List Char → List Char
  | _, [] => []
  | 0, l => l
  | fuel + 1, c :: rest =>
    if pat.isEmpty = false ∧ charsBeginWith pat (c :: rest) = true then
      rep ++ replaceChars pat rep fuel (List.drop (pat.length - 1) rest)
    else c :: replaceChars pat rep fuel rest

/-- Replace every occurrence of `pat` in `s` by `rep`. -/
def strReplace (s pat rep : String) : String :=
  String.mk (replaceChars pat.data rep.data s.data.length s.data)

/-- `sitemap_patterns` of BusinessStandardSpider
(businessstandard.py lines 11-13). -/
def sitemap_patterns : List String :=
  ["https://www.business-standard.com/sitemap/{year}-{month}-1.xml"]

/-- Modelled from the spec: the Sitemap URL Templater renders one template
by substituting each named placeholder with the matching date formatter
applied to the unit's date. -/
def renderTemplate (d : CrawlDate) (t : String) : String :=
  strReplace (strReplace t "{year}" (fmtYear d)) "{month}" (fmtMonth d)

/-- Modelled from the spec: rendering a calendar unit produces one URL per
template of `sitemap_url_templates`, in declared order. -/
def renderUnit (templates : List String) (d : CrawlDate) : List String :=
  templates.map (renderTemplate d)

/-! ## DateWindow Generator (claim C4)

Modelled from the spec: the generator itself lives in the spider base
class, not under src/; `sitemap_type = "monthly"` (businessstandard.py
line 9) selects the granularity. -/

/-- Gregorian leap year. -/
def isLeapYear (y : Nat) : Bool :=
  (y % 4 == 0 && y % 100 != 0) || y % 400 == 0

/-- Length of a month (1-12), taking leapness as a flag. -/
def monthDays (leap : Bool) (m : Nat) : Nat :=
  if m = 2 then (if leap then 29 else 28)
  else if m = 4 ∨ m = 6 ∨ m = 9 ∨ m = 11 then 30
  else 31

/-- Length of a month of a given year. -/
def daysInMonth (y m : Nat) : Nat := monthDays (isLeapYear y) m

/-- Total days of the months strictly before month `m` in one year. -/
def monthsBefore (leap : Bool) : Nat → Nat
  | 0 => 0
  | 1 => 0
  | m + 1 => monthsBefore leap m + monthDays leap m

/-- Number of leap years strictly before year `y`. -/
def leapsBefore : Nat → Nat
  | 0 => 0
  | y + 1 => leapsBefore y + (if isLeapYear y then 1 else 0)

/-- Day ordinal of 1 January of year `y` (day 0 is 1 January of year 0). -/
def yearStartDay (y : Nat) : Nat := 365 * y + leapsBefore y

/-- Absolute day ordinal of a date. -/
def dayOrdinal (d : CrawlDate) : Nat :=
  yearStartDay d.year + monthsBefore (isLeapYear d.year) d.month + (d.day - 1)

/-- Absolute month ordinal of a date. -/
def monthOrdinal (d : CrawlDate) : Nat := 12 * d.year + (d.month - 1)

/-- A well-formed calendar date. -/
def WFDate (d : CrawlDate) : Prop :=
  1 ≤ d.month ∧ d.month ≤ 12 ∧ 1 ≤ d.day ∧ d.day ≤ daysInMonth d.year d.month

instance (d : CrawlDate) : Decidable (WFDate d) := by
  unfold WFDate
  infer_instance

/-- Calendar order on dates: `a` on or before `b`. -/
def dateLe (a b : CrawlDate) : Prop :=
  a.year < b.year ∨
    (a.year = b.year ∧
      (a.month < b.month ∨ (a.month = b.month ∧ a.day ≤ b.day)))

instance (a b : CrawlDate) : Decidable (dateLe a b) := by
  unfold dateLe
  infer_instance

/-- Successor date in the calendar. -/
def nextDay (d : CrawlDate) : CrawlDate :=
  if d.day < daysInMonth d.year d.month then ⟨d.year, d.month, d.day + 1⟩
  else if d.month < 12 then ⟨d.year, d.month + 1, 1⟩
  else ⟨d.year + 1, 1, 1⟩

/-- Unit granularity of a site's sitemap, `sitemap_type`. -/
inductive Granularity where
  | monthly
  | daily
deriving DecidableEq

/-- A calendar unit: one (year, month) sitemap step or one day. -/
inductive CalendarUnit where
  | month (year : Nat) (mon : Nat)
  | day (date : CrawlDate)
deriving DecidableEq

/-- Linear position of a unit on its granularity's timeline. -/
def unitKey : CalendarUnit → Nat
  | .month y m => 12 * y + (m - 1)
  | .day d => dayOrdinal d

/-- The (year, month) unit sitting at a month ordinal. -/
def monthUnitOf (k : Nat) : CalendarUnit := .month (k / 12) (k % 12 + 1)

/-- Month units from the month of `s` to the month of `e`; partial first
and last months are included in full. -/
def monthlyUnits (s e : CrawlDate) : List CalendarUnit :=
  (List.range (monthOrdinal e + 1 - monthOrdinal s)).map
    (fun i => monthUnitOf (monthOrdinal s + i))

/-- `n` consecutive day units starting at `d`. -/
def dailyUnits : CrawlDate → Nat → List CalendarUnit
  | _, 0 => []
  | d, n + 1 => .day d :: dailyUnits (nextDay d) n

/-- Modelled from the spec: the DateWindow Generator — start > end signals
InvalidRange, otherwise the covering sequence of calendar units at the
requested granularity. -/
def dateWindow (g : Granularity) (s e : CrawlDate) :
    Except String (List CalendarUnit) :=
  if dateLe s e then
    match g with
    | .monthly => .ok (monthlyUnits s e)
    | .daily => .ok (dailyUnits s (dayOrdinal e + 1 - dayOrdinal s))
  else .error "InvalidRange"

/-! ## Seen-URL Deduplicator (claim C7) -/

/-- Strip the URL fragment: drop everything from the first `#` on. -/
def stripFragment (l : List Char) : List Char :=
  l.takeWhile (fun c => c != '#')

/-- Modelled from the spec: URL normalization of the Seen-URL Deduplicator —
strip the fragment, canonicalize the trailing slash. -/
def normalizeUrl (u : String) : String :=
  let l := stripFragment u.data
  String.mk (if l.getLast? == some '/' then l.dropLast else l)

/-- Modelled from the spec: `should_dispatch`, the atomic check-and-insert
against the run-scoped SeenSet: a URL whose normalization is already seen is
refused; otherwise it is inserted and admitted. -/
def should_dispatch (u : String) (seen : List String) : Bool × List String :=
  let n := normalizeUrl u
  if seen.contains n then (false, seen) else (true, n :: seen)

/-! ## Politeness/Concurrency Controller (claim C8) -/

/-- `CONCURRENT_REQUESTS` set by `get_scrapy_settings`
(run_all_scrapers.py line 111). -/
def CONCURRENT_REQUESTS : Nat := 16

/-- `CONCURRENT_REQUESTS_PER_DOMAIN` set by `get_scrapy_settings`
(run_all_scrapers.py line 112). -/
def CONCURRENT_REQUESTS_PER_DOMAIN : Nat := 8

/-- A crawl event: a fetch wants to start at a site, or one completes. -/
inductive CrawlEv where
  | start (site : String)
  | done (site : String)

/-- Modelled from the spec: the Politeness/Concurrency Controller.  The
state lists one entry per in-flight fetch, holding its site.  A start is
admitted only when both the global cap `N` and the per-site cap `M` leave
room; a completion removes one in-flight entry.  Bursty completion patterns
are arbitrary event interleavings. -/
def ccStep (N M : Nat) (s : List String) : CrawlEv → List String
  | .start site => if s.length < N ∧ s.count site < M then site :: s else s
  | .done site => s.erase site

/-- Run the controller over a sequence of events from the idle state. -/
def ccRun (N M : Nat) (evs : List CrawlEv) : List String :=
  evs.foldl (ccStep N M) []

end NewsScraper

namespace NewsScraper

/-! ## Runner scripts (claims C9, C10) -/

namespace RunAll

/-- `AVAILABLE_SPIDERS` of run_all_scrapers.py lines 38-54: spider name to
spider class. -/
def AVAILABLE_SPIDERS : List (String × String) :=
  [("businessstandard", "BusinessStandardSpider"),
   ("businesstoday", "BusinessTodaySpider"),
   ("cnbctv18", "CnbcTv18Spider"),
   ("economictimes", "EconomicTimesSpider"),
   ("financialexpress", "FinancialExpressSpider"),
   ("firstpost", "FirstPostSpider"),
   ("freepressjournal", "FreePressJournalSpider"),
   ("indianexpress", "IndianExpressSpider"),
   ("moneycontrol", "MoneyControlSpider"),
   ("ndtvprofit", "NDTVProfitSpider"),
   ("news18", "News18Spider"),
   ("outlookindia", "OutlookIndiaSpider"),
   ("thehindu", "TheHinduSpider"),
   ("thehindubusinessline", "TheHinduBusinessLineSpider"),
   ("zeenews", "ZeeNewsSpider")]

/-- `DEFAULT_SPIDERS` of run_all_scrapers.py lines 57-71. -/
def DEFAULT_SPIDERS : List String :=
  ["businessstandard", "businesstoday", "cnbctv18", "economictimes",
   "financialexpress", "firstpost", "freepressjournal", "ndtvprofit",
   "news18", "outlookindia", "thehindu", "thehindubusinessline", "zeenews"]

/-- Spider-name membership test, `spider_name in AVAILABLE_SPIDERS`. -/
def isAvailable (n : String) : Bool :=
  (AVAILABLE_SPIDERS.map Prod.fst).contains n

/-- Outcome of `run_spiders`: the crawlers added to the process, the warning
messages logged, and whether `process.start()` was called. -/
structure RunOutcome where
  crawlers : List String
  warnings : List String
  started : Bool
deriving DecidableEq

/-- One loop iteration of `run_spiders` (run_all_scrapers.py lines 131-136):
a known name adds its spider class to the process, an unknown name logs a
warning. -/
def runStep (st : RunOutcome) (n : String) : RunOutcome :=
  if isAvailable n then { st with crawlers := st.crawlers ++ [n] }
  else { st with warnings := st.warnings ++ [n] }

/-- Embedding of `run_spiders` (run_all_scrapers.py lines 125-142): iterate
over the requested names, then start the process only when at least one
crawler was added (`if process.crawlers`). -/
def run_spiders (names : List String) : RunOutcome :=
  let st := names.foldl runStep ⟨[], [], false⟩
  if st.crawlers.isEmpty then st else { st with started := true }

end RunAll

namespace Simple

/-- `AVAILABLE_SPIDERS` of run_scrapers_simple.py lines 35-51. -/
def AVAILABLE_SPIDERS : List (String × String) :=
  [("businessstandard", "BusinessStandardSpider"),
   ("businesstoday", "BusinessTodaySpider"),
   ("cnbctv18", "CnbcTv18Spider"),
   ("economictimes", "EconomicTimesSpider"),
   ("financialexpress", "FinancialExpressSpider"),
   ("firstpost", "FirstPostSpider"),
   ("freepressjournal", "FreePressJournalSpider"),
   ("indianexpress", "IndianExpressSpider"),
   ("moneycontrol", "MoneyControlSpider"),
   ("ndtvprofit", "NDTVProfitSpider"),
   ("news18", "News18Spider"),
   ("outlookindia", "OutlookIndiaSpider"),
   ("thehindu", "TheHinduSpider"),
   ("thehindubusinessline", "TheHinduBusinessLineSpider"),
   ("zeenews", "ZeeNewsSpider")]

/-- `DEFAULT_SPIDERS` of run_scrapers_simple.py lines 54-68. -/
def DEFAULT_SPIDERS : List String :=
  ["businessstandard", "businesstoday", "cnbctv18", "economictimes",
   "financialexpress", "firstpost", "freepressjournal", "ndtvprofit",
   "news18", "outlookindia", "thehindu", "thehindubusinessline", "zeenews"]

end Simple

/-! ## Theorems -/

/-- Claim C2: the dispatcher evaluates the patterns against the URL in
declaration order and returns the extraction routine of the first rule whose
pattern matches; at most one rule fires; if no rule matches, the URL is
silently dropped (no error, result `none`). -/
theorem dispatch_first_match (rules : List (String × String)) (url : String) :
    ((∀ pr ∈ rules, ruleMatches pr.1 url = false) → dispatch rules url = none) ∧
    (∀ i : Nat, ∀ hi : i < rules.length,
      ruleMatches (rules.get ⟨i, hi⟩).1 url = true →
      (∀ j : Nat, (hj : j < i) →
        ruleMatches (rules.get ⟨j, Nat.lt_trans hj hi⟩).1 url = false) →
      dispatch rules url = some (rules.get ⟨i, hi⟩).2) := by
  induction rules with
  | nil =>
    refine ⟨fun _ => rfl, fun i hi => absurd hi (by simp)⟩
  | cons pr rest ih =>
    constructor
    · intro h
      have hhead : ruleMatches pr.1 url = false := h pr (List.mem_cons_self pr rest)
      simp only [dispatch, hhead, Bool.false_eq_true, if_false]
      exact ih.1 (fun q hq => h q (List.mem_cons_of_mem pr hq))
    · intro i hi hm hb
      match i with
      | 0 =>
        simp only [List.get] at hm
        simp [dispatch, hm, List.get]
      | Nat.succ i =>
        have hhead : ruleMatches pr.1 url = false := by
          have := hb 0 (Nat.succ_pos i)
          simpa [List.get] using this
        simp only [dispatch, hhead, Bool.false_eq_true, if_false]
        have hm' : ruleMatches (rest.get ⟨i, Nat.lt_of_succ_lt_succ hi⟩).1 url = true := by
          simpa [List.get] using hm
        have hb' : ∀ j : Nat, (hj : j < i) →
            ruleMatches (rest.get ⟨j, Nat.lt_trans hj (Nat.lt_of_succ_lt_succ hi)⟩).1 url
              = false := by
          intro j hj
          have := hb (j + 1) (Nat.succ_lt_succ hj)
          simpa [List.get] using this
        have := ih.2 i (Nat.lt_of_succ_lt_succ hi) hm' hb'
        simpa [List.get] using this

/-- Witness for C2: on the BusinessStandard rule list, a URL matching only
the second pattern is dispatched by that second rule (the non-matching first
rule is skipped, later rules do not fire). -/
theorem dispatch_first_match_witness :
    dispatch sitemap_rules "https://www.business-standard.com/companies/x" = some "parse" :=
  (dispatch_first_match sitemap_rules
      "https://www.business-standard.com/companies/x").2 1 (by decide) (by decide)
    (by decide)

/-- Claim C3: the paywall field of the produced article is the string "True"
when the Premium `<small>` marker is present on the page and "False" when it
is absent. -/
theorem paywall_flag (p : Page) :
    (premiumMarker p = true → (parsePage p).paywall = "True") ∧
    (premiumMarker p = false → (parsePage p).paywall = "False") := by
  constructor <;> intro h <;> simp [parsePage, h]

/-- Witness for C3: a page whose only `<small>` text contains "Premium"
yields paywall "True"; one without yields "False". -/
theorem paywall_flag_witness :
    (parsePage ⟨[], [], [], [], [], [], ["Subscribe to Premium"], [], []⟩).paywall
      = "True" ∧
    (parsePage ⟨[], [], [], [], [], [], ["free article"], [], []⟩).paywall
      = "False" :=
  ⟨(paywall_flag _).1 (by decide), (paywall_flag _).2 (by decide)⟩

/-- Claim C6: extraction is total (never raises): an absent field yields an
empty field in the output record, and `parse` produces exactly one article
item per page. -/
theorem parse_total_one_item (p : Page) :
    (parse p).length = 1 ∧
    (p.titleTexts = [] → (parsePage p).title = "") ∧
    (p.descriptionTexts = [] → (parsePage p).description = "") ∧
    (p.authorTexts = [] → (parsePage p).author = "") ∧
    (p.marketsDivTexts = [] → p.storyParaTexts = [] → p.storyDivTexts = [] →
      (parsePage p).article_text = "") ∧
    (p.publishedMeta = [] → (parsePage p).date_published = "") ∧
    (p.modifiedMeta = [] → (parsePage p).date_modified = "") := by
  refine ⟨rfl, ?_, ?_, ?_, ?_, ?_, ?_⟩ <;> intros <;>
    simp [parsePage, cleanJoin, String.join, *]

/-- Witness for C6: the page on which every selector comes back empty still
yields exactly one item, with empty title. -/
theorem parse_total_one_item_witness :
    (parse ⟨[], [], [], [], [], [], [], [], []⟩).length = 1 ∧
    (parsePage ⟨[], [], [], [], [], [], [], [], []⟩).title = "" :=
  ⟨(parse_total_one_item ⟨[], [], [], [], [], [], [], [], []⟩).1,
   (parse_total_one_item ⟨[], [], [], [], [], [], [], [], []⟩).2.1 rfl⟩

/-- Folding `runStep` over requested names appends the available names to the
crawlers, the unknown names to the warnings, and leaves `started` untouched. -/
theorem runFold_spec (names : List String) (st : RunAll.RunOutcome) :
    (names.foldl RunAll.runStep st).crawlers
        = st.crawlers ++ names.filter RunAll.isAvailable ∧
    (names.foldl RunAll.runStep st).warnings
        = st.warnings ++ names.filter (fun n => !(RunAll.isAvailable n)) ∧
    (names.foldl RunAll.runStep st).started = st.started := by
  induction names generalizing st with
  | nil => simp
  | cons n rest ih =>
    simp only [List.foldl_cons, RunAll.runStep, List.filter_cons]
    by_cases h : RunAll.isAvailable n <;>
      simp [h, ih]

/-- Claim C9: `run_spiders` schedules exactly the requested names that are
keys of AVAILABLE_SPIDERS, logs one warning per unknown name without
raising, and starts the crawl process only when at least one valid spider
was scheduled. -/
theorem run_spiders_spec (names : List String) :
    (RunAll.run_spiders names).crawlers = names.filter RunAll.isAvailable ∧
    (RunAll.run_spiders names).warnings
        = names.filter (fun n => !(RunAll.isAvailable n)) ∧
    ((RunAll.run_spiders names).started = true
        ↔ names.any RunAll.isAvailable = true) := by
  have h := runFold_spec names ⟨[], [], false⟩
  have key : ((names.filter RunAll.isAvailable).isEmpty = true)
      ↔ names.any RunAll.isAvailable = false := by
    simp [List.isEmpty_iff, List.filter_eq_nil_iff]
  unfold RunAll.run_spiders
  by_cases hc : (names.foldl RunAll.runStep ⟨[], [], false⟩).crawlers.isEmpty = true
  · rw [if_pos hc]
    refine ⟨h.1, h.2.1, ?_⟩
    rw [h.2.2]
    have hany : names.any RunAll.isAvailable = false := by
      apply key.mp
      rw [h.1] at hc
      simpa using hc
    rw [hany]
  · rw [if_neg hc]
    refine ⟨h.1, h.2.1, ?_⟩
    have hany : names.any RunAll.isAvailable = true := by
      rw [h.1] at hc
      simp only [List.nil_append] at hc
      rcases Bool.eq_false_or_eq_true (names.any RunAll.isAvailable) with ht | hf
      · exact ht
      · exact absurd (key.mpr hf) hc
    rw [hany]

/-- Claim C1: field resolution tries the selector sources in declared order
and the first source yielding a non-empty value determines the field (later
sources are fallback, not union), while union mode concatenates all source
results in declared order; in particular fallback over `[A, B]` with A
yielding nothing and B yielding `["x"]` resolves to "x". -/
theorem field_resolution (results : List (List String)) :
    (∀ i : Nat, ∀ hi : i < results.length,
      hasValue (results.get ⟨i, hi⟩) = true →
      (∀ j : Nat, (hj : j < i) →
        hasValue (results.get ⟨j, Nat.lt_trans hj hi⟩) = false) →
      resolveField .fallback results = results.get ⟨i, hi⟩) ∧
    (∀ a b : List String, resolveField .union [a, b] = a ++ b) ∧
    resolveField .union results = results.flatten ∧
    cleanJoin (resolveField .fallback [[], ["x"]]) = "x" := by
  refine ⟨?_, by simp [resolveField], rfl, by decide⟩
  induction results with
  | nil => intro i hi; exact absurd hi (by simp)
  | cons r rest ih =>
    intro i hi hm hb
    match i with
    | 0 =>
      simp only [List.get] at hm
      simp [resolveField, firstWithValue, hm, List.get]
    | Nat.succ i =>
      have hhead : hasValue r = false := by
        have := hb 0 (Nat.succ_pos i)
        simpa [List.get] using this
      have hm' : hasValue (rest.get ⟨i, Nat.lt_of_succ_lt_succ hi⟩) = true := by
        simpa [List.get] using hm
      have hb' : ∀ j : Nat, (hj : j < i) →
          hasValue (rest.get ⟨j, Nat.lt_trans hj (Nat.lt_of_succ_lt_succ hi)⟩)
            = false := by
        intro j hj
        have := hb (j + 1) (Nat.succ_lt_succ hj)
        simpa [List.get] using this
      have := ih i (Nat.lt_of_succ_lt_succ hi) hm' hb'
      simp only [resolveField] at this ⊢
      simpa [firstWithValue, hhead, List.get] using this

/-- Witness for C1: fallback over a valueless first source and a second
source yielding "x" resolves the field to `["x"]` by the first-wins rule
applied at index 1. -/
theorem field_resolution_witness :
    resolveField .fallback [[], ["x"]] = ["x"] :=
  (field_resolution [[], ["x"]]).1 1 (by decide) (by decide) (by decide)

/-- Claim C5: the templater renders exactly one URL per template (a site
with two templates yields two URLs per unit), substitutes each named
placeholder with its date formatter's output, and re-rendering the same
template list with the same unit yields the same output. -/
theorem templater_spec (templates : List String) (d : CrawlDate) :
    (renderUnit templates d).length = templates.length ∧
    (∀ t1 t2 : String, (renderUnit [t1, t2] d).length = 2) ∧
    renderUnit templates d = renderUnit templates d ∧
    renderUnit sitemap_patterns ⟨2024, 7, 1⟩
      = ["https://www.business-standard.com/sitemap/2024-july-1.xml"] := by
  refine ⟨List.length_map templates _, fun t1 t2 => rfl, rfl, by decide⟩

/-- Every month has at least one day. -/
theorem monthDays_pos (leap : Bool) (m : Nat) : 1 ≤ monthDays leap m := by
  unfold monthDays
  split
  · split <;> omega
  · split <;> omega

/-- Every month of every year has at least one day. -/
theorem daysInMonth_pos (y m : Nat) : 1 ≤ daysInMonth y m :=
  monthDays_pos (isLeapYear y) m

/-- Cumulative month lengths step by the month's length. -/
theorem monthsBefore_step (leap : Bool) (m : Nat) (h : 1 ≤ m) :
    monthsBefore leap (m + 1) = monthsBefore leap m + monthDays leap m := by
  match m, h with
  | Nat.succ k, _ => rfl

/-- A full year's months add up to its length. -/
theorem monthsBefore_year (leap : Bool) :
    monthsBefore leap 13 = 365 + (if leap then 1 else 0) := by
  cases leap <;> decide

/-- Cumulative month lengths are monotone over the calendar year. -/
theorem monthsBefore_mono (leap : Bool) :
    ∀ m1 : Nat, m1 < 14 → ∀ m2 : Nat, m2 < 14 → m1 ≤ m2 →
      monthsBefore leap m1 ≤ monthsBefore leap m2 := by
  cases leap <;> decide

/-- Leap-year counts step by leapness. -/
theorem leapsBefore_step (y : Nat) :
    leapsBefore (y + 1) = leapsBefore y + (if isLeapYear y then 1 else 0) := rfl

/-- Year starts step by the year's length. -/
theorem yearStartDay_step (y : Nat) :
    yearStartDay (y + 1)
      = yearStartDay y + 365 + (if isLeapYear y then 1 else 0) := by
  unfold yearStartDay
  rw [leapsBefore_step]
  cases isLeapYear y <;> simp <;> ring

/-- An earlier year's start plus its length never passes a later year's
start. -/
theorem yearStartDay_gap (y1 y2 : Nat) (h : y1 < y2) :
    yearStartDay y1 + 365 + (if isLeapYear y1 then 1 else 0)
      ≤ yearStartDay y2 := by
  have h1 := yearStartDay_step y1
  have h2 : yearStartDay (y1 + 1) ≤ yearStartDay y2 := by
    have hmono : Monotone yearStartDay := by
      apply monotone_nat_of_le_succ
      intro n
      rw [yearStartDay_step n]
      split <;> omega
    exact hmono h
  omega

/-- The in-year offset of a well-formed date is below the year's length. -/
theorem dayInYear_lt (d : CrawlDate) (h : WFDate d) :
    monthsBefore (isLeapYear d.year) d.month + (d.day - 1)
      < 365 + (if isLeapYear d.year then 1 else 0) := by
  obtain ⟨hm1, hm2, hd1, hd2⟩ := h
  have hstep := monthsBefore_step (isLeapYear d.year) d.month hm1
  have hmono := monthsBefore_mono (isLeapYear d.year) (d.month + 1) (by omega)
    13 (by omega) (by omega)
  have hyear := monthsBefore_year (isLeapYear d.year)
  unfold daysInMonth at hd2
  omega

/-- Stepping to the next calendar day advances the day ordinal by one. -/
theorem dayOrdinal_nextDay (d : CrawlDate) (h : WFDate d) :
    dayOrdinal (nextDay d) = dayOrdinal d + 1 := by
  obtain ⟨hm1, hm2, hd1, hd2⟩ := h
  unfold nextDay
  by_cases hlt : d.day < daysInMonth d.year d.month
  · rw [if_pos hlt]
    simp only [dayOrdinal]
    omega
  · rw [if_neg hlt]
    have hday : d.day = daysInMonth d.year d.month := by omega
    unfold daysInMonth at hday
    by_cases hm : d.month < 12
    · rw [if_pos hm]
      simp only [dayOrdinal]
      rw [monthsBefore_step (isLeapYear d.year) d.month hm1]
      have := monthDays_pos (isLeapYear d.year) d.month
      omega
    · rw [if_neg hm]
      have hm12 : d.month = 12 := by omega
      have h13 := monthsBefore_year (isLeapYear d.year)
      have hstep : monthsBefore (isLeapYear d.year) 13
          = monthsBefore (isLeapYear d.year) 12 + monthDays (isLeapYear d.year) 12 :=
        monthsBefore_step (isLeapYear d.year) 12 (by omega)
      have hmd : monthDays (isLeapYear d.year) 12 = 31 := by
        simp [monthDays]
      have h1 : monthsBefore (isLeapYear (d.year + 1)) 1 = 0 := rfl
      simp only [dayOrdinal]
      rw [yearStartDay_step d.year, h1, hday, hm12, hmd]
      omega

/-- Stepping to the next calendar day preserves well-formedness. -/
theorem nextDay_WF (d : CrawlDate) (h : WFDate d) : WFDate (nextDay d) := by
  obtain ⟨hm1, hm2, hd1, hd2⟩ := h
  unfold nextDay
  by_cases hlt : d.day < daysInMonth d.year d.month
  · rw [if_pos hlt]
    unfold WFDate
    dsimp only
    exact ⟨hm1, hm2, by omega, by omega⟩
  · rw [if_neg hlt]
    by_cases hm : d.month < 12
    · rw [if_pos hm]
      unfold WFDate
      dsimp only
      exact ⟨by omega, by omega, by omega, daysInMonth_pos d.year (d.month + 1)⟩
    · rw [if_neg hm]
      unfold WFDate
      dsimp only
      exact ⟨by omega, by omega, by omega, daysInMonth_pos (d.year + 1) 1⟩

/-- `dailyUnits` outputs exactly the requested number of day units. -/
theorem dailyUnits_length (n : Nat) : ∀ d, (dailyUnits d n).length = n := by
  induction n with
  | zero => intro d; rfl
  | succ n ih => intro d; simp [dailyUnits, ih]

/-- The keys of the daily window are the consecutive day ordinals. -/
theorem dailyUnits_keys (n : Nat) :
    ∀ d, WFDate d →
      (dailyUnits d n).map unitKey = List.range' (dayOrdinal d) n := by
  induction n with
  | zero => intro d _; rfl
  | succ n ih =>
    intro d hd
    simp only [dailyUnits, List.map_cons, unitKey]
    rw [ih (nextDay d) (nextDay_WF d hd), dayOrdinal_nextDay d hd,
      List.range'_succ]

/-- The key of the unit at a month ordinal is that ordinal. -/
theorem monthUnitOf_key (k : Nat) : unitKey (monthUnitOf k) = k := by
  simp only [monthUnitOf, unitKey]
  omega

/-- The keys of the monthly window are the consecutive month ordinals. -/
theorem monthlyUnits_keys (s e : CrawlDate) :
    (monthlyUnits s e).map unitKey
      = List.range' (monthOrdinal s) (monthOrdinal e + 1 - monthOrdinal s) := by
  unfold monthlyUnits
  rw [List.map_map, List.range'_eq_map_range]
  apply List.map_congr_left
  intro i _
  simp [monthUnitOf_key]

/-- A list whose keys are consecutive is strictly increasing and has no
duplicates. -/
theorem keys_range'_pairwise (l : List CalendarUnit) (a n : Nat)
    (h : l.map unitKey = List.range' a n) :
    List.Pairwise (fun u v => unitKey u < unitKey v) l ∧ l.Nodup := by
  have hp : List.Pairwise (· < ·) (l.map unitKey) := by
    rw [h]
    exact List.pairwise_lt_range' a n
  rw [List.pairwise_map] at hp
  refine ⟨hp, List.Pairwise.imp ?_ hp⟩
  intro u v hlt hEq
  rw [hEq] at hlt
  exact Nat.lt_irrefl _ hlt

/-- Calendar order implies month-ordinal order for well-formed dates. -/
theorem monthOrdinal_le (s e : CrawlDate) (hs : WFDate s) (he : WFDate e)
    (h : dateLe s e) : monthOrdinal s ≤ monthOrdinal e := by
  obtain ⟨hs1, hs2, _, _⟩ := hs
  obtain ⟨he1, he2, _, _⟩ := he
  unfold dateLe at h
  unfold monthOrdinal
  omega

/-- Calendar order implies day-ordinal order for well-formed dates. -/
theorem dayOrdinal_le (s e : CrawlDate) (hs : WFDate s) (he : WFDate e)
    (h : dateLe s e) : dayOrdinal s ≤ dayOrdinal e := by
  unfold dateLe at h
  rcases h with hy | ⟨hy, hrest⟩
  · have h1 := dayInYear_lt s hs
    have h2 := yearStartDay_gap s.year e.year hy
    unfold dayOrdinal
    omega
  · obtain ⟨hs1, hs2, hd1, hd2⟩ := hs
    obtain ⟨he1, he2, he3, he4⟩ := he
    rcases hrest with hm | ⟨hm, hd⟩
    · have hstep := monthsBefore_step (isLeapYear s.year) s.month hs1
      have hmono := monthsBefore_mono (isLeapYear s.year) (s.month + 1)
        (by omega) e.month (by omega) (by omega)
      unfold daysInMonth at hd2
      unfold dayOrdinal
      rw [hy] at hstep hmono hd2 ⊢
      omega
    · unfold dayOrdinal
      rw [hy, hm]
      omega

/-- Claim C4: for start ≤ end the DateWindow Generator yields, at either
granularity, a finite strictly increasing sequence of calendar units with
no gaps and no duplicates whose length is the exact number of units spanned
(monthly: one unit per (year, month) pair, partial months in full); for
start > end it signals InvalidRange. -/
theorem date_window_spec (s e : CrawlDate) (hs : WFDate s) (he : WFDate e) :
    (dateLe s e →
      ∃ l, dateWindow .monthly s e = .ok l ∧
        l.length = monthOrdinal e - monthOrdinal s + 1 ∧
        l.map unitKey = List.range' (monthOrdinal s)
          (monthOrdinal e - monthOrdinal s + 1) ∧
        List.Pairwise (fun u v => unitKey u < unitKey v) l ∧ l.Nodup) ∧
    (dateLe s e →
      ∃ l, dateWindow .daily s e = .ok l ∧
        l.length = dayOrdinal e - dayOrdinal s + 1 ∧
        l.map unitKey = List.range' (dayOrdinal s)
          (dayOrdinal e - dayOrdinal s + 1) ∧
        List.Pairwise (fun u v => unitKey u < unitKey v) l ∧ l.Nodup) ∧
    (¬ dateLe s e →
      dateWindow .monthly s e = .error "InvalidRange" ∧
      dateWindow .daily s e = .error "InvalidRange") := by
  refine ⟨?_, ?_, ?_⟩
  · intro h
    have hmo := monthOrdinal_le s e hs he h
    have hn : monthOrdinal e - monthOrdinal s + 1
        = monthOrdinal e + 1 - monthOrdinal s := by omega
    have hkeys := monthlyUnits_keys s e
    refine ⟨monthlyUnits s e, ?_, ?_, ?_, ?_, ?_⟩
    · simp [dateWindow, h]
    · simp only [monthlyUnits, List.length_map, List.length_range]
      omega
    · rw [hn]
      exact hkeys
    · exact (keys_range'_pairwise _ _ _ hkeys).1
    · exact (keys_range'_pairwise _ _ _ hkeys).2
  · intro h
    have hdo := dayOrdinal_le s e hs he h
    have hn : dayOrdinal e - dayOrdinal s + 1
        = dayOrdinal e + 1 - dayOrdinal s := by omega
    have hkeys := dailyUnits_keys (dayOrdinal e + 1 - dayOrdinal s) s hs
    refine ⟨dailyUnits s (dayOrdinal e + 1 - dayOrdinal s), ?_, ?_, ?_, ?_, ?_⟩
    · simp [dateWindow, h]
    · rw [dailyUnits_length]
      omega
    · rw [hn]
      exact hkeys
    · exact (keys_range'_pairwise _ _ _ hkeys).1
    · exact (keys_range'_pairwise _ _ _ hkeys).2
  · intro h
    constructor <;> simp [dateWindow, h]

/-- Witness for C4: the four-day window from 30 December of year 1 to
2 January of year 2, crossing a month and a year boundary. -/
theorem date_window_spec_witness :
    ∃ l, dateWindow .daily ⟨1, 12, 30⟩ ⟨2, 1, 2⟩ = .ok l ∧
      l.length = dayOrdinal ⟨2, 1, 2⟩ - dayOrdinal ⟨1, 12, 30⟩ + 1 ∧
      l.map unitKey = List.range' (dayOrdinal ⟨1, 12, 30⟩)
        (dayOrdinal ⟨2, 1, 2⟩ - dayOrdinal ⟨1, 12, 30⟩ + 1) ∧
      List.Pairwise (fun u v => unitKey u < unitKey v) l ∧ l.Nodup :=
  (date_window_spec ⟨1, 12, 30⟩ ⟨2, 1, 2⟩ (by decide) (by decide)).2.1
    (by decide)

/-- Claim C7: calling check-and-insert twice within one run with the same
normalized URL returns true the first time and false the second time, so a
normalized URL is dispatched at most once per run. -/
theorem dedup_check_and_insert (u1 u2 : String) (seen : List String)
    (hnorm : normalizeUrl u1 = normalizeUrl u2)
    (hnew : seen.contains (normalizeUrl u1) = false) :
    (should_dispatch u1 seen).1 = true ∧
    (should_dispatch u2 (should_dispatch u1 seen).2).1 = false := by
  simp only [should_dispatch, hnew, ← hnorm]
  simp

/-- Witness for C7: the fragment and the trailing slash normalize away, so
the slashless URL is admitted once and its fragmented twin is then refused. -/
theorem dedup_check_and_insert_witness :
    (should_dispatch "https://ex.com/a" []).1 = true ∧
    (should_dispatch "https://ex.com/a/#top"
        (should_dispatch "https://ex.com/a" []).2).1 = false :=
  dedup_check_and_insert "https://ex.com/a" "https://ex.com/a/#top" []
    (by decide) (by decide)

/-- The controller invariant is preserved by every step from every
compliant state. -/
theorem ccFold_inv (N M : Nat) (evs : List CrawlEv) (s : List String)
    (h1 : s.length ≤ N) (h2 : ∀ site, s.count site ≤ M) :
    (evs.foldl (ccStep N M) s).length ≤ N ∧
    ∀ site, (evs.foldl (ccStep N M) s).count site ≤ M := by
  induction evs generalizing s with
  | nil => exact ⟨h1, h2⟩
  | cons ev rest ih =>
    simp only [List.foldl_cons]
    apply ih
    · match ev with
      | .start site =>
        simp only [ccStep]
        split
        · next h => simpa using h.1
        · exact h1
      | .done site =>
        simp only [ccStep]
        exact Nat.le_trans (List.Sublist.length_le (List.erase_sublist site s)) h1
    · intro site2
      match ev with
      | .start site =>
        simp only [ccStep]
        split
        · next h =>
          by_cases hsame : site = site2
          · subst hsame
            simpa [List.count_cons_self] using h.2
          · rw [List.count_cons_of_ne (by simpa using fun hx => hsame hx.symm)]
            exact h2 site2
        · exact h2 site2
      | .done site =>
        simp only [ccStep]
        exact Nat.le_trans (List.Sublist.count_le (List.erase_sublist site s) site2)
          (h2 site2)

/-- Claim C8: under a global in-flight cap of N the controller never permits
more than N concurrent fetches across all sites and never violates the
per-site cap M, whatever the (bursty) event interleaving; in particular the
caps configured by `get_scrapy_settings` (16 global, 8 per domain) are never
exceeded. -/
theorem cc_never_exceeds_caps (N M : Nat) (evs : List CrawlEv) :
    (ccRun N M evs).length ≤ N ∧
    (∀ site, (ccRun N M evs).count site ≤ M) ∧
    (ccRun CONCURRENT_REQUESTS CONCURRENT_REQUESTS_PER_DOMAIN evs).length ≤ 16 ∧
    (∀ site,
      (ccRun CONCURRENT_REQUESTS CONCURRENT_REQUESTS_PER_DOMAIN evs).count site
        ≤ 8) := by
  have h := ccFold_inv N M evs [] (by simp) (by simp)
  have h16 := ccFold_inv CONCURRENT_REQUESTS CONCURRENT_REQUESTS_PER_DOMAIN evs []
    (by simp) (by simp)
  exact ⟨h.1, h.2, h16.1, h16.2⟩

/-- Claim C10: every default spider is available, the available spiders not
in the default list are exactly indianexpress and moneycontrol, a default
run schedules exactly 13 spiders, and the simple runner declares the same
tables. -/
theorem default_spiders_spec :
    (∀ n ∈ RunAll.DEFAULT_SPIDERS, RunAll.isAvailable n = true) ∧
    ((RunAll.AVAILABLE_SPIDERS.map Prod.fst).filter
        (fun n => !(RunAll.DEFAULT_SPIDERS.contains n)))
      = ["indianexpress", "moneycontrol"] ∧
    RunAll.DEFAULT_SPIDERS.length = 13 ∧
    Simple.AVAILABLE_SPIDERS = RunAll.AVAILABLE_SPIDERS ∧
    Simple.DEFAULT_SPIDERS = RunAll.DEFAULT_SPIDERS := by
  refine ⟨?_, ?_, ?_, ?_, ?_⟩ <;> decide

end NewsScraper
